import Mathlib

/-!
# Verification of the order-parser core (src/app.py)

Shallow embedding of the platform-detection, column-resolution and
aggregation pipeline of `app.py`:

* `detect_platform`      — app.py lines 50–65
* `get_column_mapping`   — app.py lines 68–97
* `process_file`         — app.py lines 100–127

Spreadsheet cells are heterogeneous (text, numeric, blank/NaN); we model
them with `Cell`.  A pandas DataFrame is modelled by `RawTable`: a list of
column identifiers plus rows of cells (positional, cell `i` of a row lies
under column `i`).  `pd.to_numeric(·, errors="coerce")` on a cell is
modelled by `toNumeric` (numeric text is modelled as integer text, the
only numeric form the claims exercise); `.fillna(0).astype(int)` by
`coerceQty`.  Since line 112 of the source assigns the coerced column back
into the caller's DataFrame, `process_file` is modelled state-passing:
it returns the (possibly mutated) table together with the result.
-/

namespace Rekapan

/-- A spreadsheet cell: blank (NaN), a number, or text. -/
inductive Cell where
  | blank
  | num (n : Int)
  | text (s : String)
deriving DecidableEq, Repr

/-- A parsed DataFrame: named columns and positional rows of cells. -/
structure RawTable where
  columns : List String
  rows : List (List Cell)
deriving DecidableEq, Repr

/-- The two recognized platforms (`'shopee'` / `'tiktok'` in app.py). -/
inductive Platform where
  | shopee
  | tiktok
deriving DecidableEq, Repr

/-- The dict `{'sku': ..., 'quantity': ...}` returned by `get_column_mapping`. -/
structure ColMapping where
  sku : String
  quantity : String
deriving DecidableEq, Repr

/-- The two distinct per-role errors produced by `process_file`
(app.py lines 106–109): "SKU column '…' not found in the file." and
"Quantity column '…' not found in the file.". -/
inductive ProcError where
  | skuNotFound (name : String)
  | qtyNotFound (name : String)
deriving DecidableEq, Repr

/-- `shopee_indicators` (app.py line 56). -/
def shopee_indicators : List String :=
  ["No. Pesanan", "Nomor Referensi SKU", "Status Pesanan", "Jumlah"]

/-- `tiktok_indicators` (app.py line 61). -/
def tiktok_indicators : List String :=
  ["Seller SKU", "Order ID", "Seller sku input by the seller", "SKU sold quantity"]

/-- Is `pre` a prefix of the second list? (model of Python substring search step) -/
def startsWithChars : List Char → List Char → Bool
  | [], _ => true
  | _ :: _, [] => false
  | a :: as, b :: bs => a = b && startsWithChars as bs

/-- Does the haystack contain `needle` as a contiguous sublist? -/
def containsSub (needle : List Char) : List Char → Bool
  | [] => needle.isEmpty
  | c :: rest => startsWithChars needle (c :: rest) || containsSub needle rest

/-- Python's `needle in hay` substring test on strings. -/
def strContains (hay needle : String) : Bool :=
  containsSub needle.toList hay.toList

/-- `' '.join(columns)` (app.py line 53). -/
def joinSpace (cols : List String) : String :=
  String.intercalate " " cols

/-- `detect_platform` (app.py lines 50–65): Shopee by exact membership of
any Shopee indicator in the column list, else TikTok by substring
containment of any TikTok indicator in the space-joined column text,
else unrecognized (`None`). -/
def detect_platform (columns : List String) : Option Platform :=
  if shopee_indicators.any (fun i => columns.contains i) then
    some .shopee
  else if tiktok_indicators.any (fun i => strContains (joinSpace columns) i) then
    some .tiktok
  else
    none

/-- `get_column_mapping` (app.py lines 68–97).  Shopee: fixed mapping.
TikTok: short form `"Seller SKU"`/`"Quantity"` if `"Seller SKU"` is an
exact column, else the hardcoded long-form strings.  (The source's loop
over `columns` at lines 78–82 binds `sku_col`/`qty_col` but never reads
them, so it has no effect on the returned mapping and is not modelled.) -/
def get_column_mapping (platform : Platform) (columns : List String) : ColMapping :=
  match platform with
  | .shopee => ⟨"Nomor Referensi SKU", "Jumlah"⟩
  | .tiktok =>
    if columns.contains "Seller SKU" then
      ⟨"Seller SKU", "Quantity"⟩
    else
      ⟨"Seller sku input by the seller in the product system.",
       "SKU sold quantity in the order."⟩

/-- Parse a run of decimal digits, most significant first (accumulator
form); fails on the first non-digit. -/
def parseNatChars : List Char → Nat → Option Nat
  | [], acc => some acc
  | c :: rest, acc =>
    if c.isDigit then parseNatChars rest (acc * 10 + (c.toNat - 48)) else none

/-- Numeric parsing of a text cell, as `pd.to_numeric` performs it on
strings: an optional leading minus sign followed by at least one digit
(integer numerals are the only numeric text the pipeline's inputs carry);
anything else fails to parse. -/
def parseIntStr (s : String) : Option Int :=
  match s.toList with
  | [] => none
  | '-' :: rest =>
    match rest with
    | [] => none
    | _ => (parseNatChars rest 0).map (fun n => -(n : Int))
  | cs => (parseNatChars cs 0).map (fun n => (n : Int))

/-- `pd.to_numeric(cell, errors="coerce")`: numbers pass through, numeric
text parses, everything else (non-numeric text, blank) becomes NaN
(`none`). -/
def toNumeric : Cell → Option Int
  | .blank => none
  | .num n => some n
  | .text s => parseIntStr s

/-- `pd.to_numeric(·, errors="coerce").fillna(0).astype(int)` on one cell
(app.py line 112). -/
def coerceQty (c : Cell) : Int :=
  (toNumeric c).getD 0

/-- Index of a column identifier in the column list (first occurrence). -/
def colIdx : List String → String → Nat
  | [], _ => 0
  | c :: cs, x => if c = x then 0 else colIdx cs x + 1

/-- Cell of a row under a given column index; absent cells read as blank. -/
def cellAt (r : List Cell) (i : Nat) : Cell :=
  r.getD i Cell.blank

/-- The SKU filter `df[sku].notna() & (df[sku] != '')` (app.py line 116)
applied to one SKU cell. -/
def skuKeep : Cell → Bool
  | .blank => false
  | .text s => !(s = "")
  | .num _ => true

/-- One step of grouping: add a (key, qty) pair into the accumulated
per-key sums. -/
def insertPair (p : Cell × Int) : List (Cell × Int) → List (Cell × Int)
  | [] => [p]
  | q :: rest => if q.1 = p.1 then (q.1, q.2 + p.2) :: rest else q :: insertPair p rest

/-- `groupby(sku)[qty].sum()` (app.py line 119): per-SKU sums of the
quantity values. -/
def groupSum (l : List (Cell × Int)) : List (Cell × Int) :=
  l.foldl (fun acc p => insertPair p acc) []

/-- Lexicographic comparison of character lists (proved below to agree
with the standard order on `String`). -/
def charListLe : List Char → List Char → Bool
  | [], _ => true
  | _ :: _, [] => false
  | a :: as, b :: bs =>
    if a < b then true else if b < a then false else charListLe as bs

/-- Lexicographic string comparison. -/
def strLe (s t : String) : Bool :=
  charListLe s.toList t.toList

/-- Comparison used by `sort_values(by=sku_col)` (app.py line 122).  On the
text cells that occur as SKUs it is lexicographic string comparison; it is
totalized over the other cell shapes (blank < num < text, numbers by
value) so the sort is defined on every table. -/
def cellLe : Cell → Cell → Bool
  | .blank, _ => true
  | .num _, .blank => false
  | .num n, .num m => n ≤ m
  | .num _, .text _ => true
  | .text _, .blank => false
  | .text _, .num _ => false
  | .text s, .text t => strLe s t

/-- The order on (SKU cell, quantity) pairs used by the final sort:
compare the SKU keys with `cellLe`. -/
def skuOrder (a b : Cell × Int) : Prop :=
  cellLe a.1 b.1 = true

instance : DecidableRel skuOrder :=
  fun a b => inferInstanceAs (Decidable (cellLe a.1 b.1 = true))

/-- `sort_values(by=sku_col)` (app.py line 122): stable sort ascending by
the SKU key. -/
def sortBySku (l : List (Cell × Int)) : List (Cell × Int) :=
  l.insertionSort skuOrder

/-- The aggregation core applied to extracted (SKU cell, quantity) pairs:
filter out missing/empty SKUs, group-sum, sort (app.py lines 114–122). -/
def summarize (pairs : List (Cell × Int)) : List (Cell × Int) :=
  sortBySku (groupSum (pairs.filter (fun p => skuKeep p.1)))

/-- `df[qty_col] = pd.to_numeric(df[qty_col], errors="coerce").fillna(0).astype(int)`
(app.py line 112): overwrite the quantity column, in place, with the
coerced integer values. -/
def coerceQtyCol (df : RawTable) (qty : String) : RawTable :=
  let qi := colIdx df.columns qty
  { df with rows := df.rows.map (fun r => r.set qi (Cell.num (coerceQty (cellAt r qi)))) }

/-- Extraction of the `(SKU cell, quantity value)` pair of every row under
the resolved columns (`df[[sku_col, qty_col]]`, app.py line 115; the
quantity column has already been coerced to integers when this runs, so
reading it through `coerceQty` is the identity on it). -/
def extractPairs (df : RawTable) (m : ColMapping) : List (Cell × Int) :=
  df.rows.map (fun r =>
    (cellAt r (colIdx df.columns m.sku),
     coerceQty (cellAt r (colIdx df.columns m.quantity))))

/-- `process_file` (app.py lines 100–127).  Checks both resolved columns
exist (distinct error per role, SKU first), coerces the quantity column in
place (the mutation is returned as the first component), extracts
(SKU, quantity) pairs, filters empty/missing SKUs, groups, sums and sorts.
The trailing `rename` (line 125) only relabels the displayed columns and
does not change the data. -/
def process_file (df : RawTable) (m : ColMapping) :
    RawTable × Except ProcError (List (Cell × Int)) :=
  if m.sku ∈ df.columns then
    if m.quantity ∈ df.columns then
      let df' := coerceQtyCol df m.quantity
      (df', .ok (summarize (extractPairs df' m)))
    else
      (df, .error (.qtyNotFound m.quantity))
  else
    (df, .error (.skuNotFound m.sku))

/-- The input rows that aggregation includes: those whose SKU cell is
present and non-empty. -/
def includedRows (df : RawTable) (m : ColMapping) : List (List Cell) :=
  df.rows.filter (fun r => skuKeep (cellAt r (colIdx df.columns m.sku)))

/-- Total coerced quantity over the included input rows. -/
def inputQtySum (df : RawTable) (m : ColMapping) : Int :=
  (includedRows df m |>.map
    (fun r => coerceQty (cellAt r (colIdx df.columns m.quantity)))).sum

/-- Total quantity over a summary's rows. -/
def sumSnd (l : List (Cell × Int)) : Int :=
  (l.map Prod.snd).sum

/-- SKU keys of a summary. -/
def keys (l : List (Cell × Int)) : List Cell :=
  l.map Prod.fst

/-! ## The sort comparison agrees with the standard string order -/

theorem charListLe_iff_lex :
    ∀ a b : List Char, charListLe a b = true ↔ (a = b ∨ List.Lex (· < ·) a b) := by
  intro a
  induction a with
  | nil =>
    intro b
    cases b with
    | nil => simp [charListLe]
    | cons y ys =>
      simp only [charListLe, true_iff]
      exact Or.inr List.Lex.nil
  | cons x xs ih =>
    intro b
    cases b with
    | nil =>
      simp only [charListLe, Bool.false_eq_true, false_iff]
      rintro (h | h)
      · exact List.noConfusion h
      · cases h
    | cons y ys =>
      simp only [charListLe]
      by_cases hxy : x < y
      · simp only [if_pos hxy, true_iff]
        exact Or.inr (List.Lex.rel hxy)
      · rw [if_neg hxy]
        by_cases hyx : y < x
        · rw [if_pos hyx]
          simp only [Bool.false_eq_true, false_iff]
          rintro (h | h)
          · cases h
            exact absurd hyx (lt_irrefl x)
          · cases h with
            | rel h1 => exact absurd h1 hxy
            | cons h1 => exact absurd hyx (lt_irrefl x)
        · rw [if_neg hyx]
          have hxy' : x = y := le_antisymm (not_lt.mp hyx) (not_lt.mp hxy)
          subst hxy'
          rw [ih ys]
          constructor
          · rintro (h | h)
            · exact Or.inl (by rw [h])
            · exact Or.inr (List.Lex.cons h)
          · rintro (h | h)
            · exact Or.inl (by injection h)
            · cases h with
              | rel h1 => exact absurd h1 (lt_irrefl x)
              | cons h1 => exact Or.inr h1

theorem strLe_iff (s t : String) : strLe s t = true ↔ s ≤ t := by
  rw [String.le_iff_toList_le, le_iff_lt_or_eq]
  constructor
  · intro h
    rcases (charListLe_iff_lex s.toList t.toList).mp h with h | h
    · exact Or.inr h
    · exact Or.inl h
  · intro h
    apply (charListLe_iff_lex s.toList t.toList).mpr
    rcases h with h | h
    · exact Or.inr h
    · exact Or.inl h

theorem strLe_total (s t : String) : strLe s t = true ∨ strLe t s = true := by
  rcases le_total s t with h | h
  · exact Or.inl ((strLe_iff s t).mpr h)
  · exact Or.inr ((strLe_iff t s).mpr h)

theorem strLe_trans {a b c : String}
    (h1 : strLe a b = true) (h2 : strLe b c = true) : strLe a c = true :=
  (strLe_iff a c).mpr (le_trans ((strLe_iff a b).mp h1) ((strLe_iff b c).mp h2))

theorem cellLe_total (a b : Cell) : cellLe a b = true ∨ cellLe b a = true := by
  cases a with
  | blank => exact Or.inl (by cases b <;> rfl)
  | num n =>
    cases b with
    | blank => exact Or.inr rfl
    | num m =>
      simp only [cellLe, decide_eq_true_eq]
      exact le_total n m
    | text s => exact Or.inl rfl
  | text s =>
    cases b with
    | blank => exact Or.inr rfl
    | num m => exact Or.inr rfl
    | text t => exact strLe_total s t

theorem cellLe_trans {a b c : Cell}
    (h1 : cellLe a b = true) (h2 : cellLe b c = true) : cellLe a c = true := by
  cases a with
  | blank => cases c <;> rfl
  | num n =>
    cases b with
    | blank => simp [cellLe] at h1
    | num m =>
      cases c with
      | blank => simp [cellLe] at h2
      | num k =>
        simp only [cellLe, decide_eq_true_eq] at h1 h2 ⊢
        exact le_trans h1 h2
      | text t => rfl
    | text s =>
      cases c with
      | blank => simp [cellLe] at h2
      | num k => simp [cellLe] at h2
      | text t => rfl
  | text s =>
    cases b with
    | blank => simp [cellLe] at h1
    | num m => simp [cellLe] at h1
    | text t =>
      cases c with
      | blank => simp [cellLe] at h2
      | num k => simp [cellLe] at h2
      | text u => exact strLe_trans h1 h2

theorem sortBySku_sorted (l : List (Cell × Int)) :
    (sortBySku l).Sorted skuOrder := by
  haveI : IsTotal (Cell × Int) skuOrder := ⟨fun a b => cellLe_total a.1 b.1⟩
  haveI : IsTrans (Cell × Int) skuOrder := ⟨fun _ _ _ h1 h2 => cellLe_trans h1 h2⟩
  exact List.sorted_insertionSort skuOrder l

theorem sortBySku_perm (l : List (Cell × Int)) :
    (sortBySku l).Perm l :=
  List.perm_insertionSort skuOrder l

/-! ## Grouping: sums, key uniqueness, sign preservation -/

theorem sumSnd_insertPair (p : Cell × Int) :
    ∀ acc : List (Cell × Int), sumSnd (insertPair p acc) = sumSnd acc + p.2 := by
  intro acc
  induction acc with
  | nil => simp [insertPair, sumSnd]
  | cons q rest ih =>
    by_cases h : q.1 = p.1
    · simp only [insertPair, if_pos h, sumSnd, List.map_cons, List.sum_cons]
      simp only [sumSnd, List.map_cons, List.sum_cons] at ih ⊢
      ring
    · simp only [insertPair, if_neg h, sumSnd, List.map_cons, List.sum_cons] at ih ⊢
      rw [ih]
      ring

theorem sumSnd_foldl_insertPair :
    ∀ (l acc : List (Cell × Int)),
      sumSnd (l.foldl (fun acc p => insertPair p acc) acc) = sumSnd acc + sumSnd l := by
  intro l
  induction l with
  | nil => intro acc; simp [sumSnd]
  | cons p rest ih =>
    intro acc
    simp only [List.foldl_cons]
    rw [ih (insertPair p acc), sumSnd_insertPair]
    simp only [sumSnd, List.map_cons, List.sum_cons]
    ring

theorem sumSnd_groupSum (l : List (Cell × Int)) : sumSnd (groupSum l) = sumSnd l := by
  unfold groupSum
  rw [sumSnd_foldl_insertPair]
  simp [sumSnd]

theorem mem_keys_insertPair (p : Cell × Int) (c : Cell) :
    ∀ acc : List (Cell × Int),
      (c ∈ keys (insertPair p acc) ↔ c = p.1 ∨ c ∈ keys acc) := by
  intro acc
  induction acc with
  | nil => simp [insertPair, keys]
  | cons q rest ih =>
    by_cases h : q.1 = p.1
    · simp only [insertPair, if_pos h, keys, List.map_cons, List.mem_cons]
      simp only [keys] at ih
      constructor
      · rintro (h1 | h1)
        · exact Or.inl (h1.trans h)
        · exact Or.inr (Or.inr h1)
      · rintro (h1 | h1 | h1)
        · exact Or.inl (h1.trans h.symm)
        · exact Or.inl h1
        · exact Or.inr h1
    · simp only [insertPair, if_neg h, keys, List.map_cons, List.mem_cons]
      simp only [keys] at ih
      rw [ih]
      tauto

theorem nodup_keys_insertPair (p : Cell × Int) :
    ∀ acc : List (Cell × Int),
      (keys acc).Nodup → (keys (insertPair p acc)).Nodup := by
  intro acc
  induction acc with
  | nil => intro _; simp [insertPair, keys]
  | cons q rest ih =>
    intro hnd
    simp only [keys, List.map_cons, List.nodup_cons] at hnd
    by_cases h : q.1 = p.1
    · simp only [insertPair, if_pos h, keys, List.map_cons, List.nodup_cons]
      exact hnd
    · simp only [insertPair, if_neg h, keys, List.map_cons, List.nodup_cons]
      constructor
      · intro hmem
        rcases (mem_keys_insertPair p q.1 rest).mp hmem with h1 | h1
        · exact h h1
        · exact hnd.1 h1
      · exact ih hnd.2

theorem nodup_keys_foldl_insertPair :
    ∀ (l acc : List (Cell × Int)),
      (keys acc).Nodup → (keys (l.foldl (fun acc p => insertPair p acc) acc)).Nodup := by
  intro l
  induction l with
  | nil => intro acc h; exact h
  | cons p rest ih =>
    intro acc h
    simp only [List.foldl_cons]
    exact ih (insertPair p acc) (nodup_keys_insertPair p acc h)

theorem nodup_keys_groupSum (l : List (Cell × Int)) : (keys (groupSum l)).Nodup := by
  unfold groupSum
  exact nodup_keys_foldl_insertPair l [] (by simp [keys])

theorem nonneg_insertPair (p : Cell × Int) (hp : 0 ≤ p.2) :
    ∀ acc : List (Cell × Int), (∀ q ∈ acc, 0 ≤ q.2) →
      ∀ q ∈ insertPair p acc, 0 ≤ q.2 := by
  intro acc
  induction acc with
  | nil =>
    intro _ q hq
    simp only [insertPair, List.mem_singleton] at hq
    rw [hq]
    exact hp
  | cons a rest ih =>
    intro hacc q hq
    by_cases h : a.1 = p.1
    · simp only [insertPair, if_pos h, List.mem_cons] at hq
      rcases hq with hq | hq
      · rw [hq]
        have := hacc a (List.mem_cons_self a rest)
        positivity
      · exact hacc q (List.mem_cons_of_mem a hq)
    · simp only [insertPair, if_neg h, List.mem_cons] at hq
      rcases hq with hq | hq
      · rw [hq]
        exact hacc a (List.mem_cons_self a rest)
      · exact ih (fun r hr => hacc r (List.mem_cons_of_mem a hr)) q hq

theorem nonneg_foldl_insertPair :
    ∀ (l acc : List (Cell × Int)), (∀ p ∈ l, 0 ≤ p.2) → (∀ q ∈ acc, 0 ≤ q.2) →
      ∀ q ∈ l.foldl (fun acc p => insertPair p acc) acc, 0 ≤ q.2 := by
  intro l
  induction l with
  | nil => intro acc _ hacc q hq; exact hacc q hq
  | cons p rest ih =>
    intro acc hl hacc q hq
    simp only [List.foldl_cons] at hq
    refine ih (insertPair p acc) (fun r hr => hl r (List.mem_cons_of_mem p hr)) ?_ q hq
    exact nonneg_insertPair p (hl p (List.mem_cons_self p rest)) acc hacc

theorem nonneg_groupSum (l : List (Cell × Int)) (hl : ∀ p ∈ l, 0 ≤ p.2) :
    ∀ q ∈ groupSum l, 0 ≤ q.2 := by
  unfold groupSum
  exact nonneg_foldl_insertPair l [] hl (by simp)

/-! ## Cell access, column indexing and the in-place column update -/

theorem cellAt_set_self (r : List Cell) (i : Nat) (v : Cell) (h : i < r.length) :
    cellAt (r.set i v) i = v := by
  unfold cellAt
  rw [List.getD_eq_getElem?_getD, List.getElem?_set_self h]
  rfl

theorem cellAt_set_ne (r : List Cell) (i j : Nat) (v : Cell) (h : i ≠ j) :
    cellAt (r.set i v) j = cellAt r j := by
  unfold cellAt
  rw [List.getD_eq_getElem?_getD, List.getD_eq_getElem?_getD, List.getElem?_set_ne h]

theorem coerceQty_after_set (r : List Cell) (i : Nat) :
    coerceQty (cellAt (r.set i (Cell.num (coerceQty (cellAt r i)))) i) =
      coerceQty (cellAt r i) := by
  by_cases h : i < r.length
  · rw [cellAt_set_self r i _ h]
    rfl
  · rw [List.set_eq_of_length_le (Nat.le_of_not_lt h)]

theorem colIdx_getD {cols : List String} {c : String} (h : c ∈ cols) :
    cols.getD (colIdx cols c) "" = c := by
  induction cols with
  | nil => cases h
  | cons x xs ih =>
    by_cases hx : x = c
    · simp only [colIdx, if_pos hx, List.getD_cons_zero]
      exact hx
    · simp only [colIdx, if_neg hx, List.getD_cons_succ]
      exact ih (by
        rcases List.mem_cons.mp h with h1 | h1
        · exact absurd h1.symm hx
        · exact h1)

theorem colIdx_inj {cols : List String} {a b : String} (ha : a ∈ cols) (hb : b ∈ cols)
    (h : colIdx cols a = colIdx cols b) : a = b := by
  have h1 := colIdx_getD ha
  have h2 := colIdx_getD hb
  rw [h, h2] at h1
  exact h1.symm

theorem coerceQtyCol_columns (df : RawTable) (q : String) :
    (coerceQtyCol df q).columns = df.columns := rfl

theorem coerceQtyCol_rows (df : RawTable) (q : String) :
    (coerceQtyCol df q).rows = df.rows.map (fun r =>
      r.set (colIdx df.columns q)
        (Cell.num (coerceQty (cellAt r (colIdx df.columns q))))) := rfl

theorem coerceQtyCol_length (df : RawTable) (q : String) :
    (coerceQtyCol df q).rows.length = df.rows.length := by
  rw [coerceQtyCol_rows, List.length_map]

theorem coerceQtyCol_cellAt_ne (df : RawTable) (q : String) (i : Nat)
    (h : i ≠ colIdx df.columns q) :
    (coerceQtyCol df q).rows.map (fun r => cellAt r i) =
      df.rows.map (fun r => cellAt r i) := by
  rw [coerceQtyCol_rows, List.map_map]
  apply List.map_congr_left
  intro r _
  exact cellAt_set_ne r (colIdx df.columns q) i _ (fun he => h he.symm)

/-! ## Branch characterizations of `process_file` -/

theorem process_file_sku_missing (df : RawTable) (m : ColMapping)
    (h : m.sku ∉ df.columns) :
    process_file df m = (df, .error (.skuNotFound m.sku)) := by
  unfold process_file
  rw [if_neg h]

theorem process_file_qty_missing (df : RawTable) (m : ColMapping)
    (hs : m.sku ∈ df.columns) (hq : m.quantity ∉ df.columns) :
    process_file df m = (df, .error (.qtyNotFound m.quantity)) := by
  unfold process_file
  rw [if_pos hs, if_neg hq]

theorem process_file_ok (df : RawTable) (m : ColMapping)
    (hs : m.sku ∈ df.columns) (hq : m.quantity ∈ df.columns) :
    process_file df m =
      (coerceQtyCol df m.quantity,
       .ok (summarize (extractPairs (coerceQtyCol df m.quantity) m))) := by
  unfold process_file
  rw [if_pos hs, if_pos hq]

theorem process_file_ok_elim {df : RawTable} {m : ColMapping} {out : List (Cell × Int)}
    (h : (process_file df m).2 = .ok out) :
    m.sku ∈ df.columns ∧ m.quantity ∈ df.columns ∧
      out = summarize (extractPairs (coerceQtyCol df m.quantity) m) := by
  by_cases hs : m.sku ∈ df.columns
  · by_cases hq : m.quantity ∈ df.columns
    · rw [process_file_ok df m hs hq] at h
      simp only [Except.ok.injEq] at h
      exact ⟨hs, hq, h.symm⟩
    · rw [process_file_qty_missing df m hs hq] at h
      simp at h
  · rw [process_file_sku_missing df m hs] at h
    simp at h

/-! ## Properties of `summarize` -/

theorem sumSnd_summarize (pairs : List (Cell × Int)) :
    sumSnd (summarize pairs) = sumSnd (pairs.filter (fun p => skuKeep p.1)) := by
  unfold summarize
  have hperm :=
    (sortBySku_perm (groupSum (pairs.filter (fun p => skuKeep p.1)))).map Prod.snd
  unfold sumSnd
  rw [hperm.sum_eq]
  exact sumSnd_groupSum _

theorem keys_summarize_nodup (pairs : List (Cell × Int)) :
    (keys (summarize pairs)).Nodup := by
  unfold summarize keys
  have hperm :=
    (sortBySku_perm (groupSum (pairs.filter (fun p => skuKeep p.1)))).map Prod.fst
  exact hperm.symm.nodup (nodup_keys_groupSum _)

theorem mem_summarize {pairs : List (Cell × Int)} {p : Cell × Int} :
    p ∈ summarize pairs ↔ p ∈ groupSum (pairs.filter (fun q => skuKeep q.1)) :=
  (sortBySku_perm _).mem_iff

theorem summarize_drop_excluded (l1 l2 : List (Cell × Int)) (p : Cell × Int)
    (h : skuKeep p.1 = false) :
    summarize (l1 ++ p :: l2) = summarize (l1 ++ l2) := by
  unfold summarize
  rw [List.filter_append, List.filter_append, List.filter_cons_of_neg (by simp [h])]

/-! ## Correspondence between extracted pairs and the input table -/

theorem extractPairs_coerced (df : RawTable) (m : ColMapping)
    (hne : m.sku ≠ m.quantity) (hs : m.sku ∈ df.columns) (hq : m.quantity ∈ df.columns) :
    extractPairs (coerceQtyCol df m.quantity) m = extractPairs df m := by
  have hsiqi : colIdx df.columns m.quantity ≠ colIdx df.columns m.sku :=
    fun h => hne (colIdx_inj hs hq h.symm)
  unfold extractPairs
  rw [coerceQtyCol_columns, coerceQtyCol_rows, List.map_map]
  apply List.map_congr_left
  intro r _
  simp only [Function.comp]
  rw [cellAt_set_ne r _ _ _ hsiqi, coerceQty_after_set]

theorem extractPairs_snd (df : RawTable) (m : ColMapping) :
    ∀ p ∈ extractPairs (coerceQtyCol df m.quantity) m,
      ∃ r ∈ df.rows, p.2 = coerceQty (cellAt r (colIdx df.columns m.quantity)) := by
  intro p hp
  unfold extractPairs at hp
  rw [coerceQtyCol_columns, coerceQtyCol_rows, List.map_map] at hp
  rcases List.mem_map.mp hp with ⟨r, hr, hpr⟩
  refine ⟨r, hr, ?_⟩
  rw [← hpr]
  simp only [Function.comp]
  rw [coerceQty_after_set]

theorem sumSnd_extract_filter (df : RawTable) (m : ColMapping) :
    sumSnd ((extractPairs df m).filter (fun p => skuKeep p.1)) = inputQtySum df m := by
  unfold extractPairs inputQtySum includedRows sumSnd
  rw [List.filter_map, List.map_map]
  congr 1

/-! ## Claims -/

/-- C1: for a recognized platform, whenever a required role's resolved
column is absent from the header the pipeline fails with the distinct
per-role error naming that column (`get_column_mapping` composed with the
existence checks of `process_file`): a missing SKU column yields the SKU
error, a present SKU column with a missing quantity column yields the
quantity error; in particular Shopee against a header containing
"Nomor Referensi SKU" but lacking "Jumlah" fails with the quantity error
naming "Jumlah". -/
theorem C1_per_role_resolution_error (p : Platform) (cols : List String)
    (rows : List (List Cell)) :
    ((get_column_mapping p cols).sku ∉ cols →
      (process_file ⟨cols, rows⟩ (get_column_mapping p cols)).2 =
        .error (.skuNotFound (get_column_mapping p cols).sku)) ∧
    ((get_column_mapping p cols).sku ∈ cols → (get_column_mapping p cols).quantity ∉ cols →
      (process_file ⟨cols, rows⟩ (get_column_mapping p cols)).2 =
        .error (.qtyNotFound (get_column_mapping p cols).quantity)) ∧
    (p = .shopee → "Nomor Referensi SKU" ∈ cols → "Jumlah" ∉ cols →
      (process_file ⟨cols, rows⟩ (get_column_mapping p cols)).2 =
        .error (.qtyNotFound "Jumlah")) := by
  refine ⟨?_, ?_, ?_⟩
  · intro h
    rw [process_file_sku_missing _ _ h]
  · intro hs hq
    rw [process_file_qty_missing _ _ hs hq]
  · intro hp hs hq
    subst hp
    rw [process_file_qty_missing _ _ hs hq]
    rfl

theorem C1_per_role_resolution_error_witness :
    (process_file ⟨["Nomor Referensi SKU"], []⟩
        (get_column_mapping .shopee ["Nomor Referensi SKU"])).2 =
      .error (.qtyNotFound "Jumlah") :=
  (C1_per_role_resolution_error .shopee ["Nomor Referensi SKU"] []).2.2 rfl
    (by decide) (by decide)

/-- C2: any header containing at least one Shopee indicator string as an
exact column identifier is detected as Shopee, whatever else is present
(the Shopee rule is evaluated before the TikTok rule). -/
theorem C2_shopee_detection (cols : List String)
    (h : ∃ i ∈ shopee_indicators, i ∈ cols) :
    detect_platform cols = some .shopee := by
  have hc : shopee_indicators.any (fun i => cols.contains i) = true := by
    rw [List.any_eq_true]
    rcases h with ⟨i, hi, hmem⟩
    exact ⟨i, hi, by simpa using hmem⟩
  unfold detect_platform
  rw [hc]
  simp

theorem C2_shopee_detection_witness :
    detect_platform ["Extra Col", "Nomor Referensi SKU", "Seller SKU", "Order ID"] =
      some .shopee :=
  C2_shopee_detection ["Extra Col", "Nomor Referensi SKU", "Seller SKU", "Order ID"]
    (by decide)

/-- C3: any header that matches no Shopee indicator exactly, and whose
space-joined header text contains some TikTok indicator as a substring,
is detected as TikTok. -/
theorem C3_tiktok_detection (cols : List String)
    (h1 : ∀ i ∈ shopee_indicators, i ∉ cols)
    (h2 : ∃ i ∈ tiktok_indicators, strContains (joinSpace cols) i = true) :
    detect_platform cols = some .tiktok := by
  have hsh : shopee_indicators.any (fun i => cols.contains i) = false := by
    rw [List.any_eq_false]
    intro i hi
    simpa using h1 i hi
  have htk : tiktok_indicators.any (fun i => strContains (joinSpace cols) i) = true := by
    rw [List.any_eq_true]
    exact h2
  unfold detect_platform
  rw [hsh, htk]
  simp

theorem C3_tiktok_detection_witness :
    detect_platform ["Seller sku input by the seller in the product system.", "Other"] =
      some .tiktok :=
  C3_tiktok_detection ["Seller sku input by the seller in the product system.", "Other"]
    (by decide) (by decide)

/-- C4: TikTok column resolution prefers the short form: whenever the
exact identifier "Seller SKU" is a column, the mapping is
sku ↦ "Seller SKU", quantity ↦ "Quantity", even if the long-form
descriptive identifiers are present in the same header. -/
theorem C4_tiktok_short_form (cols : List String) (h : "Seller SKU" ∈ cols) :
    get_column_mapping .tiktok cols = ⟨"Seller SKU", "Quantity"⟩ := by
  have hc : cols.contains "Seller SKU" = true := by simpa using h
  unfold get_column_mapping
  rw [hc]
  simp

theorem C4_tiktok_short_form_witness :
    get_column_mapping .tiktok
      ["Seller SKU", "Seller sku input by the seller in the product system.",
       "SKU sold quantity in the order."] = ⟨"Seller SKU", "Quantity"⟩ :=
  C4_tiktok_short_form
    ["Seller SKU", "Seller sku input by the seller in the product system.",
     "SKU sold quantity in the order."] (by decide)

/-- C5: quantity cells that fail numeric parsing coerce to 0 and their
rows are kept, never dropped and never fatal: a row with unparseable
quantity still appears in the summary (with 0), and the claim's table
with quantity cells "10", "abc", "", "5" under the single SKU "X"
aggregates to exactly one row ("X", 15). -/
theorem C5_unparseable_coerces_to_zero :
    (∀ c : Cell, toNumeric c = none → coerceQty c = 0) ∧
    (process_file ⟨["SKU", "Qty"], [[.text "A", .text "abc"]]⟩ ⟨"SKU", "Qty"⟩).2 =
      .ok [(.text "A", 0)] ∧
    (process_file ⟨["SKU", "Qty"],
        [[.text "X", .text "10"], [.text "X", .text "abc"],
         [.text "X", .text ""], [.text "X", .text "5"]]⟩ ⟨"SKU", "Qty"⟩).2 =
      .ok [(.text "X", 15)] := by
  refine ⟨?_, rfl, rfl⟩
  intro c h
  unfold coerceQty
  rw [h]
  rfl

theorem C5_unparseable_coerces_to_zero_witness :
    coerceQty (Cell.text "abc") = 0 :=
  C5_unparseable_coerces_to_zero.1 (Cell.text "abc") (by decide)

/-- C6: rows whose SKU cell is missing (blank) or the empty string are
excluded before grouping and contribute to neither row count nor any sum:
deleting such a row anywhere in the input leaves the summary unchanged,
and the claim's input rows ("", 3), ("A", 2) yield exactly [("A", 2)]. -/
theorem C6_empty_sku_excluded :
    (∀ (l1 l2 : List (Cell × Int)) (p : Cell × Int), skuKeep p.1 = false →
      summarize (l1 ++ p :: l2) = summarize (l1 ++ l2)) ∧
    skuKeep (Cell.text "") = false ∧
    skuKeep Cell.blank = false ∧
    (process_file ⟨["SKU", "Qty"], [[.text "", .num 3], [.text "A", .num 2]]⟩
        ⟨"SKU", "Qty"⟩).2 = .ok [(.text "A", 2)] :=
  ⟨summarize_drop_excluded, rfl, rfl, rfl⟩

theorem C6_empty_sku_excluded_witness :
    summarize [(Cell.text "A", 1), (Cell.text "", 7)] = summarize [(Cell.text "A", 1)] :=
  C6_empty_sku_excluded.1 [(Cell.text "A", 1)] [] (Cell.text "", 7) rfl

/-- C7: every successful aggregation satisfies both structural
invariants — no two summary rows share a SKU key, and the rows are sorted
ascending by the SKU key, where on text SKUs the sort order is exactly the
standard lexicographic string order; the claim's SKUs "B10", "A2", "A1"
come out as "A1", "A2", "B10". -/
theorem C7_unique_sorted_invariants :
    (∀ (df : RawTable) (m : ColMapping) (out : List (Cell × Int)),
      (process_file df m).2 = .ok out →
        (keys out).Nodup ∧ out.Sorted skuOrder) ∧
    (∀ (s t : String) (q q' : Int),
      skuOrder (Cell.text s, q) (Cell.text t, q') ↔ s ≤ t) ∧
    (process_file ⟨["SKU", "Qty"],
        [[.text "B10", .num 1], [.text "A2", .num 1], [.text "A1", .num 1]]⟩
        ⟨"SKU", "Qty"⟩).2 =
      .ok [(.text "A1", 1), (.text "A2", 1), (.text "B10", 1)] := by
  refine ⟨?_, ?_, rfl⟩
  · intro df m out h
    rcases process_file_ok_elim h with ⟨_, _, hout⟩
    subst hout
    exact ⟨keys_summarize_nodup _, sortBySku_sorted _⟩
  · intro s t q q'
    unfold skuOrder
    simp only [cellLe]
    exact strLe_iff s t

theorem C7_unique_sorted_invariants_witness :
    (keys [((Cell.text "A1" : Cell), (1 : Int)), (Cell.text "A2", 1),
      (Cell.text "B10", 1)]).Nodup ∧
    ([((Cell.text "A1" : Cell), (1 : Int)), (Cell.text "A2", 1),
      (Cell.text "B10", 1)]).Sorted skuOrder :=
  C7_unique_sorted_invariants.1
    ⟨["SKU", "Qty"], [[.text "B10", .num 1], [.text "A2", .num 1], [.text "A1", .num 1]]⟩
    ⟨"SKU", "Qty"⟩ _ rfl

/-- C8: on every successful aggregation (with the two resolved roles
naming distinct columns, as every mapping `get_column_mapping` produces
does), the total quantity of the summary equals the sum of the coerced
quantities over exactly the input rows whose SKU cell is present and
non-empty. -/
theorem C8_quantity_mass_conserved :
    (∀ (df : RawTable) (m : ColMapping) (out : List (Cell × Int)),
      (process_file df m).2 = .ok out → m.sku ≠ m.quantity →
        sumSnd out = inputQtySum df m) ∧
    (∀ (p : Platform) (cols : List String),
      (get_column_mapping p cols).sku ≠ (get_column_mapping p cols).quantity) := by
  constructor
  · intro df m out h hne
    rcases process_file_ok_elim h with ⟨hs, hq, hout⟩
    subst hout
    rw [sumSnd_summarize, extractPairs_coerced df m hne hs hq, sumSnd_extract_filter]
  · intro p cols
    cases p with
    | shopee =>
      show ("Nomor Referensi SKU" : String) ≠ "Jumlah"
      decide
    | tiktok =>
      unfold get_column_mapping
      by_cases hc : cols.contains "Seller SKU" = true
      · rw [if_pos hc]
        decide
      · rw [if_neg hc]
        decide

theorem C8_quantity_mass_conserved_witness :
    sumSnd [(Cell.text "A", 2)] =
      inputQtySum ⟨["SKU", "Qty"], [[.text "", .num 3], [.text "A", .num 2]]⟩
        ⟨"SKU", "Qty"⟩ :=
  C8_quantity_mass_conserved.1
    ⟨["SKU", "Qty"], [[.text "", .num 3], [.text "A", .num 2]]⟩
    ⟨"SKU", "Qty"⟩ _ rfl (by decide)

/-- C9 counterexample: a table with the single row ("A", -5) aggregates
successfully to a summary containing the negative quantity -5, so it is
false that every Quantity in a produced SummaryTable is non-negative for
every input table. -/
theorem C9_negative_quantity_counterexample :
    ∃ out : List (Cell × Int),
      (process_file ⟨["SKU", "Qty"], [[.text "A", .num (-5)]]⟩ ⟨"SKU", "Qty"⟩).2 =
        .ok out ∧
      ∃ p ∈ out, p.2 < 0 :=
  ⟨[(.text "A", -5)], rfl, by decide⟩

/-- C9 (amended): every summary quantity is non-negative provided every
coerced input quantity in the resolved quantity column is non-negative;
unparseable cells coerce to 0, so only negative numeric input cells can
make an output quantity negative. -/
theorem C9_nonneg_amended :
    (∀ (df : RawTable) (m : ColMapping) (out : List (Cell × Int)),
      (process_file df m).2 = .ok out →
      (∀ r ∈ df.rows, 0 ≤ coerceQty (cellAt r (colIdx df.columns m.quantity))) →
      ∀ p ∈ out, 0 ≤ p.2) ∧
    (∀ c : Cell, toNumeric c = none → 0 ≤ coerceQty c) := by
  constructor
  · intro df m out h hq p hp
    rcases process_file_ok_elim h with ⟨_, _, hout⟩
    subst hout
    rw [mem_summarize] at hp
    refine nonneg_groupSum _ ?_ p hp
    intro q hqmem
    rcases List.mem_filter.mp hqmem with ⟨hq1, _⟩
    rcases extractPairs_snd df m q hq1 with ⟨r, hr, hq2⟩
    rw [hq2]
    exact hq r hr
  · intro c h
    unfold coerceQty
    rw [h]
    decide

theorem C9_nonneg_amended_witness :
    ∀ p ∈ [((Cell.text "A" : Cell), (2 : Int))], 0 ≤ p.2 :=
  C9_nonneg_amended.1
    ⟨["SKU", "Qty"], [[.text "", .num 3], [.text "A", .num 2]]⟩
    ⟨"SKU", "Qty"⟩ _ rfl (by decide)

/-- C10 counterexample: `process_file` does not leave the input table
unchanged — on a table whose quantity cell is the text "abc" the returned
table differs from the input (the cell has been overwritten with the
coerced value 0), refuting the claim that the input RawTable, and in
particular its quantity column, is the same before and after the call. -/
theorem C10_mutation_counterexample :
    (process_file ⟨["SKU", "Qty"], [[.text "A", .text "abc"]]⟩ ⟨"SKU", "Qty"⟩).1 ≠
      (⟨["SKU", "Qty"], [[.text "A", .text "abc"]]⟩ : RawTable) := by
  decide

/-- C10 (amended): the result of `process_file` is a deterministic
function of its inputs, but the input table is not left unchanged: on
success the quantity column is overwritten in place with the coerced
integer values (`coerceQtyCol`); the column list, the row count and every
cell outside the quantity column are preserved, and on a failed column
check the table is returned unchanged. -/
theorem C10_mutation_amended (df : RawTable) (m : ColMapping) :
    ((process_file df m).1.columns = df.columns) ∧
    ((process_file df m).1.rows.length = df.rows.length) ∧
    (∀ e, (process_file df m).2 = .error e → (process_file df m).1 = df) ∧
    (m.sku ∈ df.columns → m.quantity ∈ df.columns →
      (process_file df m).1 = coerceQtyCol df m.quantity) ∧
    (∀ i, i ≠ colIdx df.columns m.quantity →
      (process_file df m).1.rows.map (fun r => cellAt r i) =
        df.rows.map (fun r => cellAt r i)) := by
  by_cases hs : m.sku ∈ df.columns
  · by_cases hq : m.quantity ∈ df.columns
    · rw [process_file_ok df m hs hq]
      refine ⟨rfl, coerceQtyCol_length df m.quantity, ?_, fun _ _ => rfl, ?_⟩
      · intro e he
        simp at he
      · intro i hi
        exact coerceQtyCol_cellAt_ne df m.quantity i hi
    · rw [process_file_qty_missing df m hs hq]
      exact ⟨rfl, rfl, fun _ _ => rfl, fun _ hq2 => absurd hq2 hq, fun _ _ => rfl⟩
  · rw [process_file_sku_missing df m hs]
    exact ⟨rfl, rfl, fun _ _ => rfl, fun hs2 _ => absurd hs2 hs, fun _ _ => rfl⟩

theorem C10_mutation_amended_witness :
    (process_file ⟨["SKU", "Qty"], [[.text "A", .text "abc"]]⟩ ⟨"SKU", "Qty"⟩).1 =
      coerceQtyCol ⟨["SKU", "Qty"], [[.text "A", .text "abc"]]⟩ "Qty" :=
  (C10_mutation_amended ⟨["SKU", "Qty"], [[.text "A", .text "abc"]]⟩
    ⟨"SKU", "Qty"⟩).2.2.2.1 (by decide) (by decide)

end Rekapan
